import Mathlib

/-!
Verification of the geographic data pipeline of the react-map-poc
repository: a shallow embedding of the TopoJSON normalization, the
antimeridian repair, the bounds / zoom computations and the drill-down
focus state machine, together with theorems settling the specified
properties.  Coordinates are modelled as rationals; the zoom heuristic
(which uses a real logarithm) is modelled over the reals.
-/

namespace ReactMapPoc

/-- A longitude/latitude coordinate pair (source: `[number, number]`). -/
structure Point where
  lng : ℚ
  lat : ℚ
  deriving DecidableEq, Repr

/-- A linear ring: a list of coordinate pairs. -/
abbrev Ring := List Point

/-- GeoJSON geometry as handled by the repository: `Polygon` (a list of
rings), `MultiPolygon` (a list of polygons), or any other geometry type,
which the repair code passes through untouched. -/
inductive Geometry where
  | polygon (rings : List Ring)
  | multiPolygon (polys : List (List Ring))
  | otherGeom
  deriving DecidableEq, Repr

/-- A feature id: JavaScript `string | number` ids, or any other value
(`typeof` neither `"string"` nor `"number"`). -/
inductive FeatId where
  | strId (s : String)
  | numId (q : ℚ)
  | otherId
  deriving DecidableEq, Repr

/-- Feature properties, modelled as an association list of string keys to
string values; a missing key models an absent property and the empty
string models a falsy value. -/
abbrev Props := List (String × String)

/-- A GeoJSON feature: optional id, optional geometry (`null` allowed),
and a properties object. -/
structure Feature where
  id : Option FeatId
  geometry : Option Geometry
  properties : Props
  deriving DecidableEq, Repr

/-- A GeoJSON feature collection. -/
structure FC where
  features : List Feature
  deriving DecidableEq, Repr

/-! ## Antimeridian repair (src/lib/geoDataService.ts `fixAntimeridianCrossing`,
duplicated in src/lib geoUtils / geoDataProvider with identical logic) -/

/-- The longitudes of a ring (source: `ring.map(coord => coord[0])`). -/
def ringLngs (r : Ring) : List ℚ := r.map Point.lng

/-- `Math.max(...lngs) - Math.min(...lngs) > 180` for a ring; an empty
ring gives `-Infinity` in JavaScript, hence `false` here. -/
def ringHasIssue (r : Ring) : Bool :=
  match ringLngs r with
  | [] => false
  | x :: xs => decide (xs.foldl max x - xs.foldl min x > 180)

/-- Per-point shift applied to crossing rings: add 360 to a negative
longitude, keep other points unchanged. -/
def shiftPoint (p : Point) : Point :=
  if p.lng < 0 then { lng := p.lng + 360, lat := p.lat } else p

/-- Per-ring repair, exactly the inner lambda of the source: a ring whose
longitude span exceeds 180 has every negative-longitude point shifted by
360; other rings are returned unchanged. -/
def fixRing (r : Ring) : Ring :=
  if ringHasIssue r then r.map shiftPoint else r

/-- Whether any ring of a polygon list triggers the repair (the source's
`hasAntimeridianIssue` flag). -/
def polysHaveIssue (ps : List (List Ring)) : Bool :=
  ps.any (fun poly => poly.any ringHasIssue)

/-- Per-feature repair (source: the `.map` body of
`fixAntimeridianCrossing`): features without geometry or with a
non-polygonal geometry are returned as is; otherwise every ring is passed
through the per-ring repair, and the feature is rebuilt only when some
ring had an issue. -/
def fixFeature (f : Feature) : Feature :=
  match f.geometry with
  | none => f
  | some Geometry.otherGeom => f
  | some (Geometry.polygon rings) =>
      if polysHaveIssue [rings] then
        { f with geometry := some (Geometry.polygon (rings.map fixRing)) }
      else f
  | some (Geometry.multiPolygon ps) =>
      if polysHaveIssue ps then
        { f with geometry := some (Geometry.multiPolygon (ps.map (·.map fixRing))) }
      else f

/-- `fixAntimeridianCrossing` on a whole feature collection. -/
def fixAntimeridianCrossing (g : FC) : FC :=
  { g with features := g.features.map fixFeature }

/-- Structure-preserving map of the per-ring repair over a geometry (used
to state what the repair does ring by ring). -/
def mapRingsG (t : Ring → Ring) : Geometry → Geometry
  | Geometry.polygon rings => Geometry.polygon (rings.map t)
  | Geometry.multiPolygon ps => Geometry.multiPolygon (ps.map (·.map t))
  | Geometry.otherGeom => Geometry.otherGeom

/-! ## Property normalization and TopoJSON decoding
(src/lib geoDataService `normalizeGeoData` / `loadTopoJSON`) -/

/-- JavaScript truthiness of a property access: the key is present with a
non-empty value (source: `props.k || ...`). -/
def propTruthy (props : Props) (k : String) : Option String :=
  match props.lookup k with
  | some v => if v = "" then none else some v
  | none => none

/-- The name-candidate priority list of `normalizeGeoData`:
`props.name || props.name_en || props.NAME || props.admin || props.NAME_EN
|| props.name_long || props.brk_name || props.formal_en || props.gn_name
|| "Unknown"`. -/
def pickName (props : Props) : String :=
  (propTruthy props "name").getD
  ((propTruthy props "name_en").getD
  ((propTruthy props "NAME").getD
  ((propTruthy props "admin").getD
  ((propTruthy props "NAME_EN").getD
  ((propTruthy props "name_long").getD
  ((propTruthy props "brk_name").getD
  ((propTruthy props "formal_en").getD
  ((propTruthy props "gn_name").getD "Unknown"))))))))

/-- The per-feature cleaning step of `normalizeGeoData`: keep the id when
it is a string or a number (`typeof` check), otherwise use the sequential
index `i`; keep the geometry; replace the properties by the single `name`
entry. -/
def cleanFeature (i : ℕ) (f : Feature) : Feature :=
  { id :=
      match f.id with
      | some (FeatId.strId s) => some (FeatId.strId s)
      | some (FeatId.numId q) => some (FeatId.numId q)
      | _ => some (FeatId.numId (i : ℚ)),
    geometry := f.geometry,
    properties := [("name", pickName f.properties)] }

/-- Clean a feature list starting at sequential index `i`
(the source's `features.map((feat, i) => ...)`). -/
def cleanFeaturesFrom (i : ℕ) : List Feature → List Feature
  | [] => []
  | f :: fs => cleanFeature i f :: cleanFeaturesFrom (i + 1) fs

/-- A TopoJSON geometry of the selected object collection.  The arc
indices and the transform are not needed by any claim, so the geometry
carries the decoded shape directly. -/
structure TopoGeom where
  id : Option FeatId
  properties : Props
  geometry : Option Geometry
  deriving DecidableEq, Repr

/-- A named object collection of a topology document. -/
structure TopoObject where
  geometries : List TopoGeom
  deriving DecidableEq, Repr

/-- Raw wire input of the decode step: a `Topology` (with its ordered
`objects` map), a `FeatureCollection`, or anything else. -/
inductive RawInput where
  | topology (objects : List (String × TopoObject))
  | featureCollection (fc : FC)
  | other
  deriving DecidableEq, Repr

/-- Decode-time errors of the source: `"TopoJSON has no objects"` and
`"Input data is not a valid GeoJSON or TopoJSON object."` /
`"Unsupported data format"`. -/
inductive DecodeError where
  | emptyTopology
  | unsupportedFormat
  deriving DecidableEq, Repr

/-- Modelled from the spec: the `feature()` conversion of the external
`topojson-client` library (not under src/) walks each geometry of the
selected object collection, resolves its arcs and applies the inverse
transform, producing one output feature per geometry; a collection with
zero geometries yields an empty feature collection and the conversion
itself raises none of the repository's decode errors. -/
def topoFeature (obj : TopoObject) : FC :=
  { features := obj.geometries.map (fun g =>
      { id := g.id, geometry := g.geometry, properties := g.properties }) }

/-- The format dispatch shared by `loadTopoJSON` and `normalizeGeoData`:
a `Topology` selects its first named object (erroring when `objects` has
no keys), a `FeatureCollection` passes through, anything else is an
unsupported format. -/
def decodeGeoData (raw : RawInput) : Except DecodeError FC :=
  match raw with
  | RawInput.topology objects =>
      match objects with
      | [] => Except.error DecodeError.emptyTopology
      | (_, obj) :: _ => Except.ok (topoFeature obj)
  | RawInput.featureCollection fc => Except.ok fc
  | RawInput.other => Except.error DecodeError.unsupportedFormat

/-- `normalizeGeoData` (src/unnamed/part_020): decode, repair the
antimeridian crossings, then clean ids and properties. -/
def normalizeGeoData (raw : RawInput) : Except DecodeError FC :=
  match decodeGeoData raw with
  | Except.error e => Except.error e
  | Except.ok g =>
      Except.ok { features := cleanFeaturesFrom 0 (fixAntimeridianCrossing g).features }

/-! ## Hover-time name extraction
(src/components/map/AdminBoundariesLayer.tsx `handleMouseMove`) -/

/-- JavaScript whitespace characters relevant to `String.prototype.trim`
for the data at hand. -/
def isWsChar (c : Char) : Bool :=
  c = ' ' || c = '\t' || c = '\n' || c = '\r'

/-- `rawName.replace(/\x5c0+$/, "").trim()`: drop the trailing run of NUL
characters, then trim surrounding whitespace. -/
def cleanName (s : String) : String :=
  let dropped := ((s.data.reverse.dropWhile (· = '\x00')).reverse)
  String.mk (((dropped.dropWhile isWsChar).reverse.dropWhile isWsChar).reverse)

/-- The nullish chain `props.name ?? props.NAME ?? props.admin ?? null`:
the first key that is present (even with an empty value) wins. -/
def hoverRawName (props : Props) : Option String :=
  match props.lookup "name" with
  | some v => some v
  | none =>
    match props.lookup "NAME" with
    | some v => some v
    | none => props.lookup "admin"

/-- The hover handler's name extraction: take the raw candidate, and when
it is truthy (non-empty) clean it; otherwise yield `null`. -/
def hoverName (props : Props) : Option String :=
  match hoverRawName props with
  | some v => if v = "" then none else some (cleanName v)
  | none => none

/-! ## Loaders (src/lib/geoDataService.ts `loadTopoJSON`,
`loadAdminBoundaries`) -/

/-- The outcome of the `fetch` performed by `loadTopoJSON` for a path
that is not cached: a non-success HTTP status, or a parsed JSON body. -/
inductive FetchOutcome where
  | httpError (status : ℕ)
  | okBody (raw : RawInput)
  deriving DecidableEq, Repr

/-- Errors thrown by `loadTopoJSON`. -/
inductive LoadError where
  | httpError (status : ℕ)
  | decodeError (e : DecodeError)
  deriving DecidableEq, Repr

/-- `loadTopoJSON`, with the cache passed explicitly and the network
modelled by the fetch outcome the transport would produce for `path`:
on a cache hit return the entry; otherwise fail on a non-success status,
decode, repair, and store the result. -/
def loadTopoJSON (cache : List (String × FC)) (path : String)
    (resp : FetchOutcome) : Except LoadError (FC × List (String × FC)) :=
  match cache.lookup path with
  | some fc => Except.ok (fc, cache)
  | none =>
    match resp with
    | FetchOutcome.httpError status => Except.error (LoadError.httpError status)
    | FetchOutcome.okBody raw =>
      match decodeGeoData raw with
      | Except.error e => Except.error (LoadError.decodeError e)
      | Except.ok g =>
          let fixed := fixAntimeridianCrossing g
          Except.ok (fixed, (path, fixed) :: cache)

/-- `loadAdminBoundaries`: call `loadTopoJSON` on the per-country path
and turn any thrown error into `null` (the source's `try/catch` returns
`null` on every failure). -/
def loadAdminBoundaries (cache : List (String × FC)) (path : String)
    (resp : FetchOutcome) : Option (FC × List (String × FC)) :=
  match loadTopoJSON cache path resp with
  | Except.ok r => some r
  | Except.error _ => none

/-! ## Bounds (turf `bbox`, src/components/map/SiteMap.tsx `fitToBounds`,
`clampCoordinates` from the map configuration module) -/

/-- The coordinate positions a geometry contributes to a bounding box
(turf's `coordEach` over polygons and multipolygons). -/
def geomPoints : Geometry → List Point
  | Geometry.polygon rings => rings.flatten
  | Geometry.multiPolygon ps => (ps.map List.flatten).flatten
  | Geometry.otherGeom => []

/-- The coordinate positions of a feature. -/
def featPoints (f : Feature) : List Point :=
  match f.geometry with
  | none => []
  | some geo => geomPoints geo

/-- Bounding box `[minLng, minLat, maxLng, maxLat]` of a point list;
`none` models turf's degenerate infinite box for an empty input. -/
def bbox4 (pts : List Point) : Option (ℚ × ℚ × ℚ × ℚ) :=
  match pts with
  | [] => none
  | p :: ps =>
      some (ps.foldl (fun acc q =>
        (min acc.1 q.lng, min acc.2.1 q.lat, max acc.2.2.1 q.lng, max acc.2.2.2 q.lat))
        (p.lng, p.lat, p.lng, p.lat))

/-- `bbox` of a whole feature collection. -/
def bboxFC (g : FC) : Option (ℚ × ℚ × ℚ × ℚ) :=
  bbox4 (g.features.map featPoints).flatten

/-- `bbox` of a single feature. -/
def bboxFeature (f : Feature) : Option (ℚ × ℚ × ℚ × ℚ) :=
  bbox4 (featPoints f)

/-- The filter predicate of `fitToBounds`: keep a feature whose own bbox
has longitude span at most 180 and whose bbox center longitude lies
strictly inside `(-130, 170)`; a feature whose bbox computation fails
is dropped (the source's `catch` returns `false`, and a feature with no
coordinates yields `NaN` comparisons that are falsy). -/
def keepMain (f : Feature) : Bool :=
  match bboxFeature f with
  | none => false
  | some (a, _, c, _) =>
      !decide (c - a > 180) && decide (-130 < (a + c) / 2) && decide ((a + c) / 2 < 170)

/-- `clampCoordinates`: clamp a longitude to `[-180, 180]` and a latitude
to the Web-Mercator-safe band `[-85.0511, 85.0511]`. -/
def clampCoordinates (lng lat : ℚ) : ℚ × ℚ :=
  (max (-180) (min 180 lng), max (-85.0511) (min 85.0511 lat))

/-- The padding-and-clamping tail of `fitToBounds`: 5 percent of each
dimension's span as symmetric padding, then clamp both corners. -/
def padClamp (b : ℚ × ℚ × ℚ × ℚ) : (ℚ × ℚ) × (ℚ × ℚ) :=
  match b with
  | (minLng, minLat, maxLng, maxLat) =>
    let lngPad := (maxLng - minLng) * (5 / 100)
    let latPad := (maxLat - minLat) * (5 / 100)
    (clampCoordinates (minLng - lngPad) (minLat - latPad),
     clampCoordinates (maxLng + lngPad) (maxLat + latPad))

/-- `fitToBounds` (SiteMap): raw bbox; when its longitude span exceeds
180, refilter to a main subset and recompute the bbox when that subset is
non-empty; then pad and clamp.  `none` models the degenerate collection
without coordinates. -/
def fitToBounds (data : FC) : Option ((ℚ × ℚ) × (ℚ × ℚ)) :=
  match bboxFC data with
  | none => none
  | some (minLng, minLat, maxLng, maxLat) =>
      let b :=
        if maxLng - minLng > 180 then
          let main := data.features.filter keepMain
          if main.isEmpty then (minLng, minLat, maxLng, maxLat)
          else
            match bboxFC { features := main } with
            | some b2 => b2
            | none => (minLng, minLat, maxLng, maxLat)
        else (minLng, minLat, maxLng, maxLat)
      some (padClamp b)

/-! ## Zoom heuristic (src/lib/mapUtils.ts `calculateZoomFromBounds`).
The JavaScript computation runs on IEEE doubles; a degenerate box gives
`360 / 0 = Infinity`, `log2(Infinity) - 1 = Infinity`, and the clamp
then yields 15, which the real-valued model reproduces with an explicit
zero test. -/

/-- `calculateZoomFromBounds`: `max(|east - west|, |north - south|)`,
`zoom = log2(360 / maxRange) - 1` clamped to `[1, 15]`. -/
noncomputable def calculateZoomFromBounds (west south east north : ℝ) : ℝ :=
  let lonRange := |east - west|
  let latRange := |north - south|
  let maxRange := max lonRange latRange
  if maxRange = 0 then 15
  else max 1 (min (Real.logb 2 (360 / maxRange) - 1) 15)

/-! ## Focus state machine (src/components/map/SiteMap.tsx: the
`focus`/`goBack`/`exitFocus` imperative handle, `handleClick`, and the
level-change load effect).  The asynchronous load effect is modelled by a
`settle` event that delivers the loader's outcome and releases the
transition lock and the loading flag (the source's `setTimeout`
releases). -/

/-- `MAX_FOCUS_LEVEL`. -/
def MAX_FOCUS_LEVEL : ℕ := 4

/-- A focused entity: the chosen name and its admin level. -/
structure FocusedEntity where
  name : String
  level : ℕ
  deriving DecidableEq, Repr

/-- Levels that have an entry in `LEVEL_CONFIGS` (0 and 1; deeper levels
are commented out in the source). -/
def hasConfig (l : ℕ) : Bool := l == 0 || l == 1

/-- The component state relevant to navigation.  `dataByLevel l = some
true` records a loaded non-empty collection for level `l`, `some false`
records the `null` stored when the loader had no data or failed, `none`
means the level was never written.  `pendingLevel` is the level whose
load effect is in flight. -/
structure MapState where
  focusLevel : ℕ
  entityStack : List FocusedEntity
  isTransitioning : Bool
  isLoading : Bool
  hoveredRegion : Option String
  focusedFeature : Option String
  dataByLevel : ℕ → Option Bool
  pendingLevel : Option ℕ

/-- The initial state: level 0, empty stack, no locks, world data
assumed present at level 0 (loaded by the mount effect). -/
def initState : MapState :=
  { focusLevel := 0
    entityStack := []
    isTransitioning := false
    isLoading := false
    hoveredRegion := none
    focusedFeature := none
    dataByLevel := fun l => if l = 0 then some true else none
    pendingLevel := none }

/-- Navigation events: the three imperative operations, a click on a
feature resolving to `name`, and the completion of the in-flight load
effect with its outcome. -/
inductive Op where
  | focus (name : String) (target : Option ℕ)
  | click (name : String)
  | goBack
  | exitFocus
  | settle (hasData : Bool)

/-- Entering level `l` (re)starts the load effect: a configured level
`≥ 1` sets `isLoading` and records the pending load; a level without a
config only zooms and a return to level 0 does nothing. -/
def startEffect (l : ℕ) (s : MapState) : MapState :=
  if l ≥ 1 ∧ hasConfig l then
    { s with isLoading := true, pendingLevel := some l }
  else
    { s with isLoading := false, pendingLevel := none }

/-- One navigation step, translated from the source handlers. -/
def step (s : MapState) : Op → MapState
  | Op.focus name target =>
      if s.isTransitioning || s.isLoading then s
      else
        let targetLevel := target.getD (s.focusLevel + 1)
        if targetLevel > MAX_FOCUS_LEVEL ∨ targetLevel < 1 then s
        else
          startEffect targetLevel
            { s with
              isTransitioning := true
              entityStack := s.entityStack.take (targetLevel - 1) ++
                [{ name := name, level := targetLevel }]
              focusLevel := targetLevel }
  | Op.click name =>
      if s.isTransitioning || s.isLoading then s
      else
        let nextLevel := s.focusLevel + 1
        if nextLevel ≤ MAX_FOCUS_LEVEL then
          startEffect nextLevel
            { s with
              isTransitioning := true
              focusedFeature := some name
              entityStack := s.entityStack ++ [{ name := name, level := nextLevel }]
              focusLevel := nextLevel }
        else s
  | Op.goBack =>
      if s.focusLevel = 0 then s
      else
        let newLevel := s.focusLevel - 1
        startEffect newLevel
          { s with
            isTransitioning := true
            entityStack := s.entityStack.take newLevel
            focusLevel := newLevel
            hoveredRegion := none
            focusedFeature := none }
  | Op.exitFocus =>
      startEffect 0
        { s with
          isTransitioning := true
          entityStack := []
          focusLevel := 0
          hoveredRegion := none
          focusedFeature := none }
  | Op.settle hasData =>
      { s with
        isTransitioning := false
        isLoading := false
        pendingLevel := none
        dataByLevel :=
          match s.pendingLevel with
          | some l => fun m => if m = l then some hasData else s.dataByLevel m
          | none => s.dataByLevel }

/-- Run a sequence of events from a state. -/
def run (s : MapState) : List Op → MapState
  | [] => s
  | op :: ops => run (step s op) ops

/-- The resolved target level of a `focus` call in state `s`. -/
def resolvedTarget (s : MapState) (t : Option ℕ) : ℕ :=
  t.getD (s.focusLevel + 1)

/-- An event is conservative in state `s` when, if it is a `focus`, its
resolved target level does not skip past the next level. -/
def opOk (s : MapState) : Op → Bool
  | Op.focus _ t => resolvedTarget s t ≤ s.focusLevel + 1
  | _ => true

/-- Every event of the sequence is conservative at the state where it
runs. -/
def runOk (s : MapState) : List Op → Bool
  | [] => true
  | op :: ops => opOk s op && runOk (step s op) ops

/-- The stack levels are consecutive starting at `n`. -/
def levelsFrom (n : ℕ) : List FocusedEntity → Bool
  | [] => true
  | e :: rest => e.level == n && levelsFrom (n + 1) rest

/-- The focus stack invariant: the stack length equals the level and the
entry at index `i` records level `i + 1`. -/
def goodStack (s : MapState) : Prop :=
  s.entityStack.length = s.focusLevel ∧ levelsFrom 1 s.entityStack = true

/-- All longitudes appearing in a feature collection are at least `b`. -/
def lngsAtLeast (b : ℚ) (g : FC) : Bool :=
  g.features.all (fun f => (featPoints f).all (fun p => b ≤ p.lng))

/-! # Theorems -/

/-! ## Helper lemmas for the antimeridian repair -/

theorem map_fixRing_of_noIssue {rings : List Ring}
    (h : rings.any ringHasIssue = false) : rings.map fixRing = rings := by
  induction rings with
  | nil => rfl
  | cons r rest ih =>
      simp only [List.any_cons, Bool.or_eq_false_iff] at h
      simp only [List.map_cons, ih h.2, fixRing, h.1, Bool.false_eq_true, if_false]

theorem fixFeature_eq (f : Feature) :
    fixFeature f = { f with geometry := f.geometry.map (mapRingsG fixRing) } := by
  cases f with
  | mk id geometry properties =>
    match geometry with
    | none => rfl
    | some Geometry.otherGeom => rfl
    | some (Geometry.polygon rings) =>
        simp only [fixFeature, Option.map_some, mapRingsG, polysHaveIssue, List.any_cons,
          List.any_nil, Bool.or_false]
        by_cases h : rings.any ringHasIssue = true
        · simp [h, mapRingsG]
        · simp only [Bool.not_eq_true] at h
          simp [h, mapRingsG, map_fixRing_of_noIssue h]
    | some (Geometry.multiPolygon ps) =>
        simp only [fixFeature, Option.map_some, mapRingsG, polysHaveIssue]
        by_cases h : ps.any (fun poly => poly.any ringHasIssue) = true
        · simp [h, mapRingsG]
        · simp only [Bool.not_eq_true] at h
          have hmap : ps.map (·.map fixRing) = ps := by
            induction ps with
            | nil => rfl
            | cons poly rest ih =>
                simp only [List.any_cons, Bool.or_eq_false_iff] at h
                simp only [List.map_cons, map_fixRing_of_noIssue h.1, ih h.2]
          simp [h, mapRingsG, hmap]

theorem shiftPoint_shiftPoint {p : Point} (h : -360 ≤ p.lng) :
    shiftPoint (shiftPoint p) = shiftPoint p := by
  unfold shiftPoint
  by_cases hp : p.lng < 0
  · have : ¬ (p.lng + 360 < 0) := by linarith
    simp [hp, this]
  · simp [hp]

theorem fixRing_fixRing {r : Ring} (h : ∀ p ∈ r, -360 ≤ p.lng) :
    fixRing (fixRing r) = fixRing r := by
  by_cases hr : ringHasIssue r = true
  · have hshift : (r.map shiftPoint).map shiftPoint = r.map shiftPoint := by
      rw [List.map_map]
      exact List.map_congr_left (fun p hp => shiftPoint_shiftPoint (h p hp))
    unfold fixRing
    simp only [hr, if_true]
    by_cases hr2 : ringHasIssue (r.map shiftPoint) = true
    · simp [hr2, hshift]
    · simp only [Bool.not_eq_true] at hr2
      simp [hr2]
  · simp only [Bool.not_eq_true] at hr
    unfold fixRing
    simp [hr]

theorem mapRingsG_fixRing_idem (geo : Geometry)
    (h : ∀ p ∈ geomPoints geo, -360 ≤ p.lng) :
    mapRingsG fixRing (mapRingsG fixRing geo) = mapRingsG fixRing geo := by
  cases geo with
  | otherGeom => rfl
  | polygon rings =>
      simp only [mapRingsG, Geometry.polygon.injEq, List.map_map]
      refine List.map_congr_left (fun r hr => fixRing_fixRing (fun p hp => ?_))
      exact h p (by simpa [geomPoints] using List.mem_flatten_of_mem hr hp)
  | multiPolygon ps =>
      simp only [mapRingsG, Geometry.multiPolygon.injEq, List.map_map]
      refine List.map_congr_left (fun poly hpoly => ?_)
      simp only [Function.comp, List.map_map]
      refine List.map_congr_left (fun r hr => fixRing_fixRing (fun p hp => ?_))
      refine h p ?_
      simp only [geomPoints, List.mem_flatten, List.mem_map]
      exact ⟨poly.flatten, ⟨poly, hpoly, rfl⟩, List.mem_flatten_of_mem hr hp⟩

theorem fixFeature_fixFeature {f : Feature}
    (h : ∀ p ∈ featPoints f, -360 ≤ p.lng) :
    fixFeature (fixFeature f) = fixFeature f := by
  rw [fixFeature_eq f, fixFeature_eq]
  rcases f with ⟨i, geometry, props⟩
  cases geometry with
  | none => rfl
  | some geo =>
      show Feature.mk i (some (mapRingsG fixRing (mapRingsG fixRing geo))) props =
        Feature.mk i (some (mapRingsG fixRing geo)) props
      rw [mapRingsG_fixRing_idem geo (fun p hp => h p hp)]

/-- The synthetic antimeridian-crossing collection of the spec: one
polygon ring `[[170,10],[-170,10],[-170,20],[170,20]]`. -/
def exCrossFC : FC :=
  { features := [{ id := none
                   geometry := some (Geometry.polygon
                     [[⟨170, 10⟩, ⟨-170, 10⟩, ⟨-170, 20⟩, ⟨170, 20⟩]])
                   properties := [] }] }

/-- The expected repaired collection: `[[170,10],[190,10],[190,20],[170,20]]`. -/
def exFixedFC : FC :=
  { features := [{ id := none
                   geometry := some (Geometry.polygon
                     [[⟨170, 10⟩, ⟨190, 10⟩, ⟨190, 20⟩, ⟨170, 20⟩]])
                   properties := [] }] }

/-- A collection with an out-of-range longitude `-400`, on which the
repair is not idempotent. -/
def cexFC : FC :=
  { features := [{ id := none
                   geometry := some (Geometry.polygon [[⟨-400, 0⟩, ⟨170, 0⟩]])
                   properties := [] }] }

/-- C1: the repair acts ring by ring.  Every output ring is the input
ring with 360 added to each negative-longitude point when the ring's
longitude span exceeds 180, and the unchanged input ring otherwise; all
other feature fields are preserved.  The synthetic ring
`[[170,10],[-170,10],[-170,20],[170,20]]` (span 340) becomes
`[[170,10],[190,10],[190,20],[170,20]]`, whose new span no longer
triggers the repair. -/
theorem fixAntimeridianCrossing_ringwise :
    (∀ g : FC, (fixAntimeridianCrossing g).features = g.features.map (fun f =>
        { f with geometry := f.geometry.map (mapRingsG (fun r =>
            if ringHasIssue r then r.map shiftPoint else r)) })) ∧
    fixAntimeridianCrossing exCrossFC = exFixedFC ∧
    ringHasIssue [⟨170, 10⟩, ⟨190, 10⟩, ⟨190, 20⟩, ⟨170, 20⟩] = false := by
  refine ⟨fun g => ?_,
    by norm_num [exCrossFC, exFixedFC, fixAntimeridianCrossing, fixFeature, polysHaveIssue,
      fixRing, ringHasIssue, ringLngs, shiftPoint],
    by norm_num [ringHasIssue, ringLngs]⟩
  show (g.features.map fixFeature) = _
  exact List.map_congr_left (fun f _ => fixFeature_eq f)

/-- C2 (counterexample): the repair is not idempotent on every feature
collection.  A ring with longitudes `-400` and `170` has span `570 > 180`
and is shifted to longitudes `-40` and `170`; the result still has span
`210 > 180` and a negative longitude, so a second repair shifts again. -/
theorem repair_not_idempotent :
    fixAntimeridianCrossing (fixAntimeridianCrossing cexFC) ≠
      fixAntimeridianCrossing cexFC := by
  norm_num [cexFC, fixAntimeridianCrossing, fixFeature, polysHaveIssue,
    fixRing, ringHasIssue, ringLngs, shiftPoint]

/-- C2 (amended): the repair is idempotent on every feature collection
whose longitudes are all at least `-360` (in particular on every
collection with longitudes in the valid `[-180, 180]` range): a single
shift leaves no negative longitude behind, so a second pass changes no
coordinate. -/
theorem repair_idempotent (g : FC) (h : lngsAtLeast (-360) g = true) :
    fixAntimeridianCrossing (fixAntimeridianCrossing g) = fixAntimeridianCrossing g := by
  simp only [lngsAtLeast, List.all_eq_true, decide_eq_true_eq] at h
  show FC.mk ((g.features.map fixFeature).map fixFeature) = FC.mk (g.features.map fixFeature)
  rw [List.map_map]
  refine congrArg FC.mk (List.map_congr_left (fun f hf => ?_))
  exact fixFeature_fixFeature (fun p hp => h f hf p hp)

/-- C2 (witness): the idempotence theorem applied to the synthetic
antimeridian-crossing collection. -/
theorem repair_idempotent_witness :
    lngsAtLeast (-360) exCrossFC = true ∧
    fixAntimeridianCrossing (fixAntimeridianCrossing exCrossFC) =
      fixAntimeridianCrossing exCrossFC :=
  ⟨by norm_num [lngsAtLeast, exCrossFC, featPoints, geomPoints],
   repair_idempotent _ (by norm_num [lngsAtLeast, exCrossFC, featPoints, geomPoints])⟩

/-! ## C5: name normalization -/

/-- A raw feature collection whose single feature carries the NUL-padded
name `"France\x00\x00"`. -/
def franceFC : FC :=
  { features := [{ id := none
                   geometry := none
                   properties := [("name", "France\x00\x00")] }] }

/-- C5 (counterexample): the decode/normalization step does not strip
trailing NUL characters.  Normalizing a feature whose raw name property
is `"France\x00\x00"` keeps the padded name verbatim, which differs from
`"France"`. -/
theorem normalize_keeps_nul_padding :
    normalizeGeoData (RawInput.featureCollection franceFC) =
      Except.ok { features := [{ id := some (FeatId.numId 0)
                                 geometry := none
                                 properties := [("name", "France\x00\x00")] }] } ∧
    "France\x00\x00" ≠ "France" := by
  constructor
  · rfl
  · decide

/-- C5 (amended): `normalizeGeoData` derives `name` by probing the fixed
candidate list with first-non-empty-wins semantics and defaults to
`"Unknown"`, but performs no stripping; the trailing-NUL/whitespace
cleanup happens only at hover time in `AdminBoundariesLayer`, whose
extraction maps a raw `"France\x00\x00"` name to `"France"`. -/
theorem normalize_name_semantics (nm : String) (hnm : nm ≠ "") :
    normalizeGeoData (RawInput.featureCollection
        { features := [{ id := none, geometry := none, properties := [("name", nm)] }] }) =
      Except.ok { features := [{ id := some (FeatId.numId 0)
                                 geometry := none
                                 properties := [("name", nm)] }] } ∧
    normalizeGeoData (RawInput.featureCollection
        { features := [{ id := none, geometry := none,
                         properties := [("name", ""), ("name_en", "Occitanie")] }] }) =
      Except.ok { features := [{ id := some (FeatId.numId 0)
                                 geometry := none
                                 properties := [("name", "Occitanie")] }] } ∧
    normalizeGeoData (RawInput.featureCollection
        { features := [{ id := none, geometry := none, properties := [] }] }) =
      Except.ok { features := [{ id := some (FeatId.numId 0)
                                 geometry := none
                                 properties := [("name", "Unknown")] }] } ∧
    hoverName [("name", nm)] = some (cleanName nm) ∧
    cleanName "France\x00\x00" = "France" := by
  refine ⟨?_, by rfl, by rfl, ?_, by decide⟩
  · simp [normalizeGeoData, decodeGeoData, fixAntimeridianCrossing, fixFeature,
      cleanFeaturesFrom, cleanFeature, pickName, propTruthy, List.lookup, hnm]
  · simp [hoverName, hoverRawName, List.lookup, hnm]

/-- C5 (witness): the name semantics theorem applied to the NUL-padded
French name. -/
theorem normalize_name_semantics_witness :
    ("France\x00\x00" : String) ≠ "" ∧
    (normalizeGeoData (RawInput.featureCollection
        { features := [{ id := none, geometry := none,
                         properties := [("name", "France\x00\x00")] }] }) =
      Except.ok { features := [{ id := some (FeatId.numId 0)
                                 geometry := none
                                 properties := [("name", "France\x00\x00")] }] } ∧
    normalizeGeoData (RawInput.featureCollection
        { features := [{ id := none, geometry := none,
                         properties := [("name", ""), ("name_en", "Occitanie")] }] }) =
      Except.ok { features := [{ id := some (FeatId.numId 0)
                                 geometry := none
                                 properties := [("name", "Occitanie")] }] } ∧
    normalizeGeoData (RawInput.featureCollection
        { features := [{ id := none, geometry := none, properties := [] }] }) =
      Except.ok { features := [{ id := some (FeatId.numId 0)
                                 geometry := none
                                 properties := [("name", "Unknown")] }] } ∧
    hoverName [("name", "France\x00\x00")] = some (cleanName "France\x00\x00") ∧
    cleanName "France\x00\x00" = "France") :=
  ⟨by decide, normalize_name_semantics _ (by decide)⟩

/-! ## C7: decode errors -/

/-- A topology whose first (and only) object collection has zero
geometries. -/
def emptyObjTopo : RawInput :=
  RawInput.topology [("countries", { geometries := [] })]

/-- C7 (counterexample): a `Topology` whose selected object collection
has zero geometries does not fail — it decodes to an empty feature
collection.  The `EmptyTopology` error is raised only when the
`objects` map itself has no keys. -/
theorem emptyCollection_decodes :
    normalizeGeoData emptyObjTopo = Except.ok { features := [] } := by rfl

/-- C7 (amended): the decode step fails with `UnsupportedFormat` exactly
when the input is neither a `Topology` nor a `FeatureCollection`, and
fails with `EmptyTopology` exactly when the input is a `Topology` whose
`objects` map has no keys; a selected collection with zero geometries
decodes to an empty feature collection without error. -/
theorem decode_error_semantics (raw : RawInput) :
    (normalizeGeoData raw = Except.error DecodeError.unsupportedFormat ↔
      raw = RawInput.other) ∧
    (normalizeGeoData raw = Except.error DecodeError.emptyTopology ↔
      raw = RawInput.topology []) := by
  cases raw with
  | topology objects =>
      cases objects with
      | nil => simp [normalizeGeoData, decodeGeoData]
      | cons o rest => simp [normalizeGeoData, decodeGeoData]
  | featureCollection fc => simp [normalizeGeoData, decodeGeoData]
  | other => simp [normalizeGeoData, decodeGeoData]

/-! ## C8: per-entity loader error handling -/

/-- C8 (counterexample): a transport failure (HTTP 500, not a missing
file) during `loadAdminBoundaries` is converted to `null` rather than
surfaced as an error. -/
theorem adminBoundaries_swallows_transport_error :
    loadAdminBoundaries [] "/geo/admin-by-country/france-admin.json"
      (FetchOutcome.httpError 500) = none := by rfl

/-- C8 (amended): `loadAdminBoundaries` returns `null` exactly when
`loadTopoJSON` fails for any reason — missing file, transport failure,
or decode error alike; no failure kind is surfaced as an error. -/
theorem adminBoundaries_none_iff (cache : List (String × FC)) (path : String)
    (resp : FetchOutcome) :
    loadAdminBoundaries cache path resp = none ↔
      ∃ e, loadTopoJSON cache path resp = Except.error e := by
  unfold loadAdminBoundaries
  cases h : loadTopoJSON cache path resp with
  | ok r => simp
  | error e => simp

/-! ## C10: shape of the normalized output -/

theorem fixFeature_id (f : Feature) : (fixFeature f).id = f.id := by
  rw [fixFeature_eq]

theorem fixFeature_properties (f : Feature) :
    (fixFeature f).properties = f.properties := by
  rw [fixFeature_eq]

theorem cleanFeaturesFrom_length (i : ℕ) (l : List Feature) :
    (cleanFeaturesFrom i l).length = l.length := by
  induction l generalizing i with
  | nil => rfl
  | cons f fs ih => simp [cleanFeaturesFrom, ih]

theorem cleanFeaturesFrom_get (l : List Feature) (i j : ℕ)
    (h : j < (cleanFeaturesFrom i l).length) (h2 : j < l.length) :
    (cleanFeaturesFrom i l).get ⟨j, h⟩ = cleanFeature (i + j) (l.get ⟨j, h2⟩) := by
  induction l generalizing i j with
  | nil => exact absurd h2 (by simp)
  | cons f fs ih =>
      cases j with
      | zero => simp [cleanFeaturesFrom]
      | succ k =>
          have hk : k < (cleanFeaturesFrom (i + 1) fs).length := by
            simpa [cleanFeaturesFrom] using h
          have hk2 : k < fs.length := by simpa using h2
          have := ih (i + 1) k hk hk2
          simpa [cleanFeaturesFrom, Nat.add_assoc, Nat.add_comm 1 k] using this

/-- C10: for every input accepted by `normalizeGeoData`, each output
feature's properties object is exactly the single `name` key, its
geometry is the repaired source geometry, and its id equals the decoded
source feature's id when that id is a string or a number and the
sequential index otherwise. -/
theorem normalizeGeoData_shape (raw : RawInput) (out : FC)
    (h : normalizeGeoData raw = Except.ok out) :
    ∃ g, decodeGeoData raw = Except.ok g ∧
      out.features.length = g.features.length ∧
      ∀ i (hi : i < out.features.length) (hg : i < g.features.length),
        (out.features.get ⟨i, hi⟩).properties =
          [("name", pickName (g.features.get ⟨i, hg⟩).properties)] ∧
        (out.features.get ⟨i, hi⟩).geometry =
          (fixFeature (g.features.get ⟨i, hg⟩)).geometry ∧
        (match (g.features.get ⟨i, hg⟩).id with
         | some (FeatId.strId s) =>
             (out.features.get ⟨i, hi⟩).id = some (FeatId.strId s)
         | some (FeatId.numId q) =>
             (out.features.get ⟨i, hi⟩).id = some (FeatId.numId q)
         | _ => (out.features.get ⟨i, hi⟩).id = some (FeatId.numId (i : ℚ))) := by
  unfold normalizeGeoData at h
  cases hd : decodeGeoData raw with
  | error e => rw [hd] at h; exact absurd h (by simp)
  | ok g =>
      rw [hd] at h
      refine ⟨g, rfl, ?_⟩
      have hout : out = FC.mk (cleanFeaturesFrom 0 (fixAntimeridianCrossing g).features) := by
        simpa using h.symm
      subst hout
      have hlenfix : (fixAntimeridianCrossing g).features.length = g.features.length := by
        simp [fixAntimeridianCrossing]
      constructor
      · simp [cleanFeaturesFrom_length, hlenfix]
      · intro i hi hg
        have hif : i < (fixAntimeridianCrossing g).features.length := by
          rw [hlenfix]; exact hg
        have hgetfix : (fixAntimeridianCrossing g).features.get ⟨i, hif⟩ =
            fixFeature (g.features.get ⟨i, hg⟩) := by
          simp [fixAntimeridianCrossing]
        have hget := cleanFeaturesFrom_get (fixAntimeridianCrossing g).features 0 i hi hif
        rw [hgetfix] at hget
        simp only [hget, Nat.zero_add]
        refine ⟨?_, rfl, ?_⟩
        · simp [cleanFeature, fixFeature_properties]
        · rw [show (cleanFeature i (fixFeature (g.features.get ⟨i, hg⟩))).id =
              (match (fixFeature (g.features.get ⟨i, hg⟩)).id with
               | some (FeatId.strId s) => some (FeatId.strId s)
               | some (FeatId.numId q) => some (FeatId.numId q)
               | _ => some (FeatId.numId (i : ℚ))) from rfl, fixFeature_id]
          cases hid : (g.features.get ⟨i, hg⟩).id with
          | none => simp
          | some fid => cases fid <;> simp

/-- The raw input of the C10 witness: one feature with a string id and
one with a non-scalar id. -/
def c10raw : RawInput :=
  RawInput.featureCollection
    { features := [{ id := some (FeatId.strId "tx")
                     geometry := none
                     properties := [("name", "Texas"), ("admin", "USA")] },
                   { id := some FeatId.otherId
                     geometry := none
                     properties := [("name_en", "California")] }] }

/-- The normalized output of the C10 witness input. -/
def c10out : FC :=
  { features := [{ id := some (FeatId.strId "tx")
                   geometry := none
                   properties := [("name", "Texas")] },
                 { id := some (FeatId.numId 1)
                   geometry := none
                   properties := [("name", "California")] }] }

/-- C10 (witness): the shape theorem applied to a concrete two-feature
collection whose second feature has a non-scalar id. -/
theorem normalizeGeoData_shape_witness :
    normalizeGeoData c10raw = Except.ok c10out ∧
    (∃ g, decodeGeoData c10raw = Except.ok g ∧
      c10out.features.length = g.features.length ∧
      ∀ i (hi : i < c10out.features.length) (hg : i < g.features.length),
        (c10out.features.get ⟨i, hi⟩).properties =
          [("name", pickName (g.features.get ⟨i, hg⟩).properties)] ∧
        (c10out.features.get ⟨i, hi⟩).geometry =
          (fixFeature (g.features.get ⟨i, hg⟩)).geometry ∧
        (match (g.features.get ⟨i, hg⟩).id with
         | some (FeatId.strId s) =>
             (c10out.features.get ⟨i, hi⟩).id = some (FeatId.strId s)
         | some (FeatId.numId q) =>
             (c10out.features.get ⟨i, hi⟩).id = some (FeatId.numId q)
         | _ => (c10out.features.get ⟨i, hi⟩).id = some (FeatId.numId (i : ℚ)))) :=
  ⟨by rfl, normalizeGeoData_shape c10raw c10out (by rfl)⟩

/-! ## C9: zoom heuristic -/

theorem calculateZoomFromBounds_mem (w s e n : ℝ) :
    1 ≤ calculateZoomFromBounds w s e n ∧ calculateZoomFromBounds w s e n ≤ 15 := by
  unfold calculateZoomFromBounds
  by_cases h : max |e - w| |n - s| = 0
  · simp only [h, if_pos rfl]
    norm_num
  · simp only [if_neg h]
    constructor
    · exact le_max_left _ _
    · exact max_le (by norm_num) (min_le_right _ _)

/-- C9: the zoom heuristic is `log2(360 / max(lngSpan, latSpan)) - 1`
clamped to `[1, 15]` (a degenerate box yields the maximal zoom 15, the
real-valued rendering of the JavaScript `Infinity` path), and it is
antitone in bounding-box size: a box with strictly smaller span in both
dimensions never gets a smaller zoom.  The computed zoom always lies in
`[1, 15]`. -/
theorem calculateZoomFromBounds_antitone
    (wA sA eA nA wB sB eB nB : ℝ)
    (hlng : |eA - wA| < |eB - wB|) (hlat : |nA - sA| < |nB - sB|) :
    calculateZoomFromBounds wB sB eB nB ≤ calculateZoomFromBounds wA sA eA nA ∧
    1 ≤ calculateZoomFromBounds wA sA eA nA ∧
    calculateZoomFromBounds wA sA eA nA ≤ 15 := by
  refine ⟨?_, (calculateZoomFromBounds_mem wA sA eA nA).1,
    (calculateZoomFromBounds_mem wA sA eA nA).2⟩
  have hm : max |eA - wA| |nA - sA| < max |eB - wB| |nB - sB| := max_lt_max hlng hlat
  have hA0 : 0 ≤ max |eA - wA| |nA - sA| := (abs_nonneg _).trans (le_max_left _ _)
  by_cases hA : max |eA - wA| |nA - sA| = 0
  · have : calculateZoomFromBounds wA sA eA nA = 15 := by
      unfold calculateZoomFromBounds
      simp [hA]
    rw [this]
    exact (calculateZoomFromBounds_mem wB sB eB nB).2
  · have hApos : 0 < max |eA - wA| |nA - sA| := lt_of_le_of_ne hA0 (Ne.symm hA)
    have hBpos : 0 < max |eB - wB| |nB - sB| := lt_trans hApos hm
    have hB : max |eB - wB| |nB - sB| ≠ 0 := ne_of_gt hBpos
    unfold calculateZoomFromBounds
    simp only [if_neg hA, if_neg hB]
    refine max_le_max le_rfl (min_le_min ?_ le_rfl)
    refine sub_le_sub_right ?_ 1
    refine Real.logb_le_logb_of_le (by norm_num) (div_pos (by norm_num) hBpos) ?_
    exact div_le_div_of_nonneg_left (by norm_num) hApos (le_of_lt hm)

/-- C9 (witness): the antitonicity theorem applied to the nested boxes
`[0,0,10,10] ⊂ [0,0,100,100]`. -/
theorem calculateZoomFromBounds_antitone_witness :
    (|(10 : ℝ) - 0| < |(100 : ℝ) - 0| ∧ |(10 : ℝ) - 0| < |(100 : ℝ) - 0|) ∧
    (calculateZoomFromBounds 0 0 100 100 ≤ calculateZoomFromBounds 0 0 10 10 ∧
     1 ≤ calculateZoomFromBounds 0 0 10 10 ∧
     calculateZoomFromBounds 0 0 10 10 ≤ 15) :=
  ⟨⟨by norm_num, by norm_num⟩,
   calculateZoomFromBounds_antitone 0 0 10 10 0 0 100 100 (by norm_num) (by norm_num)⟩

/-! ## C6: fit-bounds with antimeridian awareness -/

theorem clampCoordinates_mem (lng lat : ℚ) :
    -180 ≤ (clampCoordinates lng lat).1 ∧ (clampCoordinates lng lat).1 ≤ 180 ∧
    -85.0511 ≤ (clampCoordinates lng lat).2 ∧ (clampCoordinates lng lat).2 ≤ 85.0511 := by
  unfold clampCoordinates
  refine ⟨le_max_left _ _, max_le (by norm_num) (min_le_left _ _),
    le_max_left _ _, max_le (by norm_num) (min_le_left _ _)⟩

theorem padClamp_range (b : ℚ × ℚ × ℚ × ℚ) (p q : ℚ × ℚ) (h : padClamp b = (p, q)) :
    (-180 ≤ p.1 ∧ p.1 ≤ 180 ∧ -85.0511 ≤ p.2 ∧ p.2 ≤ 85.0511) ∧
    (-180 ≤ q.1 ∧ q.1 ≤ 180 ∧ -85.0511 ≤ q.2 ∧ q.2 ≤ 85.0511) := by
  obtain ⟨mnLg, mnLt, mxLg, mxLt⟩ := b
  simp only [padClamp] at h
  obtain ⟨hp, hq⟩ := Prod.mk.injEq .. ▸ h
  exact ⟨hp ▸ clampCoordinates_mem _ _, hq ▸ clampCoordinates_mem _ _⟩

theorem keepMain_iff (f : Feature) :
    keepMain f = true ↔ ∃ a b c d, bboxFeature f = some (a, b, c, d) ∧
      c - a ≤ 180 ∧ -130 < (a + c) / 2 ∧ (a + c) / 2 < 170 := by
  unfold keepMain
  cases hbf : bboxFeature f with
  | none => simp
  | some t =>
      obtain ⟨a, b, c, d⟩ := t
      simp only [Bool.and_eq_true, Bool.not_eq_true', decide_eq_false_iff_not,
        decide_eq_true_eq, not_lt, Option.some.injEq, Prod.mk.injEq]
      constructor
      · rintro ⟨⟨h1, h2⟩, h3⟩
        exact ⟨a, b, c, d, ⟨rfl, rfl, rfl, rfl⟩, h1, h2, h3⟩
      · rintro ⟨a2, b2, c2, d2, ⟨rfl, rfl, rfl, rfl⟩, h1, h2, h3⟩
        exact ⟨⟨h1, h2⟩, h3⟩

/-- C6: when the raw bounding box of a collection has longitude span
above 180, `fitToBounds` filters the features to exactly those whose own
bbox span is at most 180 and whose bbox center longitude lies in
`(-130, 170)`; it recomputes bounds from that subset when non-empty and
keeps the raw bounds otherwise; and every corner pair it produces is
clamped to longitude `[-180, 180]` and latitude `[-85.0511, 85.0511]`. -/
theorem fitToBounds_antimeridian (data : FC) (mnLg mnLt mxLg mxLt : ℚ)
    (hb : bboxFC data = some (mnLg, mnLt, mxLg, mxLt))
    (hsp : mxLg - mnLg > 180) :
    (∀ f, f ∈ data.features.filter keepMain ↔
      (f ∈ data.features ∧ ∃ a b c d, bboxFeature f = some (a, b, c, d) ∧
        c - a ≤ 180 ∧ -130 < (a + c) / 2 ∧ (a + c) / 2 < 170)) ∧
    (data.features.filter keepMain = [] →
      fitToBounds data = some (padClamp (mnLg, mnLt, mxLg, mxLt))) ∧
    (∀ b2, data.features.filter keepMain ≠ [] →
      bboxFC { features := data.features.filter keepMain } = some b2 →
      fitToBounds data = some (padClamp b2)) ∧
    (∀ p q, fitToBounds data = some (p, q) →
      (-180 ≤ p.1 ∧ p.1 ≤ 180 ∧ -85.0511 ≤ p.2 ∧ p.2 ≤ 85.0511) ∧
      (-180 ≤ q.1 ∧ q.1 ≤ 180 ∧ -85.0511 ≤ q.2 ∧ q.2 ≤ 85.0511)) := by
  refine ⟨?_, ?_, ?_, ?_⟩
  · intro f
    rw [List.mem_filter, keepMain_iff]
  · intro hmain
    simp only [fitToBounds, hb, if_pos hsp, hmain, List.isEmpty_nil, if_true]
  · intro b2 hne hb2
    have hemp : (data.features.filter keepMain).isEmpty = false := by
      simpa [List.isEmpty_iff] using hne
    simp only [fitToBounds, hb, if_pos hsp, hemp, Bool.false_eq_true, if_false, hb2]
  · intro p q hpq
    simp only [fitToBounds, hb] at hpq
    exact padClamp_range _ _ _ (by exact Option.some.inj hpq)

/-- The C6 witness collection: a far-west outlier at longitude `-150`
next to a mainland pair near the prime meridian. -/
def c6data : FC :=
  { features := [{ id := none
                   geometry := some (Geometry.polygon [[⟨-150, 10⟩]])
                   properties := [] },
                 { id := none
                   geometry := some (Geometry.polygon [[⟨0, 0⟩]])
                   properties := [] },
                 { id := none
                   geometry := some (Geometry.polygon [[⟨60, 5⟩]])
                   properties := [] }] }

/-- C6 (witness): the fit-bounds theorem applied to the outlier
collection; the outlier is filtered out and the padded, clamped corners
come from the mainland bbox `(0, 0, 60, 5)`. -/
theorem fitToBounds_antimeridian_witness :
    (bboxFC c6data = some (-150, 0, 60, 10) ∧ (60 : ℚ) - (-150) > 180) ∧
    fitToBounds c6data = some (padClamp (0, 0, 60, 5)) := by
  have hb : bboxFC c6data = some (-150, 0, 60, 10) := by
    norm_num [bboxFC, bbox4, c6data, featPoints, geomPoints]
  have hsp : (60 : ℚ) - (-150) > 180 := by norm_num
  have hfil : c6data.features.filter keepMain = [c6data.features.get ⟨1, by norm_num [c6data]⟩,
      c6data.features.get ⟨2, by norm_num [c6data]⟩] := by
    norm_num [c6data, List.filter, keepMain, bboxFeature, bbox4, featPoints, geomPoints]
  refine ⟨⟨hb, hsp⟩, ?_⟩
  refine (fitToBounds_antimeridian c6data _ _ _ _ hb hsp).2.2.1 (0, 0, 60, 5) ?_ ?_
  · rw [hfil]; simp [c6data]
  · rw [hfil]
    norm_num [bboxFC, bbox4, c6data, featPoints, geomPoints]

/-! ## C3 / C4: focus state machine -/

@[simp] theorem startEffect_entityStack (l : ℕ) (s : MapState) :
    (startEffect l s).entityStack = s.entityStack := by
  unfold startEffect; split <;> rfl

@[simp] theorem startEffect_focusLevel (l : ℕ) (s : MapState) :
    (startEffect l s).focusLevel = s.focusLevel := by
  unfold startEffect; split <;> rfl

@[simp] theorem startEffect_isTransitioning (l : ℕ) (s : MapState) :
    (startEffect l s).isTransitioning = s.isTransitioning := by
  unfold startEffect; split <;> rfl

theorem levelsFrom_append_singleton (l : List FocusedEntity) (n : ℕ) (e : FocusedEntity)
    (h : levelsFrom n l = true) (he : e.level = n + l.length) :
    levelsFrom n (l ++ [e]) = true := by
  induction l generalizing n with
  | nil =>
      simp only [List.length_nil, Nat.add_zero] at he
      simp [levelsFrom, he]
  | cons f fs ih =>
      simp only [levelsFrom, Bool.and_eq_true, beq_iff_eq] at h
      simp only [List.cons_append, levelsFrom, Bool.and_eq_true, beq_iff_eq]
      refine ⟨h.1, ih (n + 1) h.2 ?_⟩
      simp only [List.length_cons] at he
      omega

theorem levelsFrom_take (l : List FocusedEntity) (n k : ℕ)
    (h : levelsFrom n l = true) : levelsFrom n (l.take k) = true := by
  induction l generalizing n k with
  | nil => simp [levelsFrom]
  | cons f fs ih =>
      cases k with
      | zero => simp [levelsFrom]
      | succ m =>
          simp only [levelsFrom, Bool.and_eq_true, beq_iff_eq] at h
          simp only [List.take_succ_cons, levelsFrom, Bool.and_eq_true, beq_iff_eq]
          exact ⟨h.1, ih (n + 1) m h.2⟩

theorem levelsFrom_get (l : List FocusedEntity) (n : ℕ)
    (h : levelsFrom n l = true) :
    ∀ i (hi : i < l.length), (l.get ⟨i, hi⟩).level = n + i := by
  induction l generalizing n with
  | nil => intro i hi; exact absurd hi (by simp)
  | cons f fs ih =>
      simp only [levelsFrom, Bool.and_eq_true, beq_iff_eq] at h
      intro i hi
      cases i with
      | zero => simpa using h.1
      | succ j =>
          have := ih (n + 1) h.2 j (by simpa using hi)
          simpa [Nat.add_comm, Nat.add_assoc, Nat.add_left_comm] using this

theorem goodStack_step (s : MapState) (op : Op) (hs : goodStack s)
    (hop : opOk s op = true) : goodStack (step s op) := by
  obtain ⟨hlen, hlev⟩ := hs
  cases op with
  | focus name t =>
      simp only [step]
      by_cases hlock : (s.isTransitioning || s.isLoading) = true
      · rw [if_pos hlock]; exact ⟨hlen, hlev⟩
      · rw [if_neg hlock]
        by_cases hrange : t.getD (s.focusLevel + 1) > MAX_FOCUS_LEVEL ∨
            t.getD (s.focusLevel + 1) < 1
        · rw [if_pos hrange]; exact ⟨hlen, hlev⟩
        · rw [if_neg hrange]
          push_neg at hrange
          have h1 : 1 ≤ t.getD (s.focusLevel + 1) := hrange.2
          have hle : t.getD (s.focusLevel + 1) ≤ s.focusLevel + 1 := by
            have := of_decide_eq_true hop
            simpa [resolvedTarget] using this
          constructor
          · simp only [startEffect_entityStack, startEffect_focusLevel,
              List.length_append, List.length_take, List.length_cons, List.length_nil]
            omega
          · simp only [startEffect_entityStack]
            refine levelsFrom_append_singleton _ _ _ (levelsFrom_take _ _ _ hlev) ?_
            show t.getD (s.focusLevel + 1) =
              1 + (s.entityStack.take (t.getD (s.focusLevel + 1) - 1)).length
            simp only [List.length_take]
            omega
  | click name =>
      simp only [step]
      by_cases hlock : (s.isTransitioning || s.isLoading) = true
      · rw [if_pos hlock]; exact ⟨hlen, hlev⟩
      · rw [if_neg hlock]
        by_cases hnext : s.focusLevel + 1 ≤ MAX_FOCUS_LEVEL
        · rw [if_pos hnext]
          constructor
          · simp only [startEffect_entityStack, startEffect_focusLevel,
              List.length_append, List.length_cons, List.length_nil]
            omega
          · simp only [startEffect_entityStack]
            refine levelsFrom_append_singleton _ _ _ hlev ?_
            show s.focusLevel + 1 = 1 + s.entityStack.length
            omega
        · rw [if_neg hnext]; exact ⟨hlen, hlev⟩
  | goBack =>
      simp only [step]
      by_cases hz : s.focusLevel = 0
      · rw [if_pos hz]; exact ⟨hlen, hlev⟩
      · rw [if_neg hz]
        constructor
        · simp only [startEffect_entityStack, startEffect_focusLevel, List.length_take]
          omega
        · simp only [startEffect_entityStack]
          exact levelsFrom_take _ _ _ hlev
  | exitFocus =>
      simp only [step]
      exact ⟨rfl, rfl⟩
  | settle d =>
      exact ⟨hlen, hlev⟩

theorem goodStack_run (s : MapState) (ops : List Op) (hs : goodStack s)
    (h : runOk s ops = true) : goodStack (run s ops) := by
  induction ops generalizing s with
  | nil => exact hs
  | cons op rest ih =>
      simp only [runOk, Bool.and_eq_true] at h
      exact ih (step s op) (goodStack_step s op hs h.1) h.2

/-- C3 (counterexample): the focus stack invariant does not survive every
operation sequence.  A single `focus("Texas", 3)` from the initial state
is accepted (its target is within `[1, MAX_FOCUS_LEVEL]`) but pushes only
one entry while setting the level to 3, so the stack length no longer
equals the level. -/
theorem focus_skip_breaks_invariant :
    (run initState [Op.focus "Texas" (some 3)]).entityStack.length = 1 ∧
    (run initState [Op.focus "Texas" (some 3)]).focusLevel = 3 ∧
    ¬ ((run initState [Op.focus "Texas" (some 3)]).entityStack.length =
       (run initState [Op.focus "Texas" (some 3)]).focusLevel) := by
  refine ⟨rfl, rfl, by decide⟩

/-- C3 (amended): after any sequence of focus / click / goBack /
exitFocus operations and load completions in which every `focus` call
targets at most one level past the current level (which covers
default-target focus and all click-driven focus), the state satisfies
`entityStack.length = level` and `entityStack[i].level = i + 1` for every
index; a `focus` with an explicit target skipping levels breaks the
invariant. -/
theorem focusStack_invariant (ops : List Op) (h : runOk initState ops = true) :
    (run initState ops).entityStack.length = (run initState ops).focusLevel ∧
    ∀ i (hi : i < (run initState ops).entityStack.length),
      ((run initState ops).entityStack.get ⟨i, hi⟩).level = i + 1 := by
  have hg := goodStack_run initState ops ⟨rfl, rfl⟩ h
  refine ⟨hg.1, fun i hi => ?_⟩
  have := levelsFrom_get _ _ hg.2 i hi
  omega

/-- C3 (witness): the invariant theorem applied to a concrete
drill-down / back / exit session. -/
theorem focusStack_invariant_witness :
    runOk initState [Op.focus "United States of America" none, Op.settle true,
      Op.click "Texas", Op.settle false, Op.goBack, Op.exitFocus] = true ∧
    ((run initState [Op.focus "United States of America" none, Op.settle true,
        Op.click "Texas", Op.settle false, Op.goBack, Op.exitFocus]).entityStack.length =
      (run initState [Op.focus "United States of America" none, Op.settle true,
        Op.click "Texas", Op.settle false, Op.goBack, Op.exitFocus]).focusLevel ∧
     ∀ i (hi : i < (run initState [Op.focus "United States of America" none, Op.settle true,
        Op.click "Texas", Op.settle false, Op.goBack, Op.exitFocus]).entityStack.length),
      ((run initState [Op.focus "United States of America" none, Op.settle true,
        Op.click "Texas", Op.settle false, Op.goBack, Op.exitFocus]).entityStack.get
          ⟨i, hi⟩).level = i + 1) :=
  ⟨by decide, focusStack_invariant _ (by decide)⟩

/-- The C4 scenario: drill to level 1, whose load returns no data, then
two further default-target focus calls without an intervening goBack. -/
def c4ops : List Op :=
  [Op.focus "United States of America" none, Op.settle false,
   Op.focus "Texas" none, Op.settle false, Op.focus "California" none]

/-- C4 (counterexample): with level 1 in fallback (its load stored no
data), `focus("Texas")` followed by `focus("California")` does not
replace — each call appends, leaving a stack of length 3, not 1.  No
click re-interpretation rule exists in the code. -/
theorem fallback_reselection_appends :
    (run initState c4ops).dataByLevel 1 = some false ∧
    (run initState c4ops).entityStack.length = 3 ∧
    ¬ ((run initState c4ops).entityStack.length = 1) := by
  refine ⟨rfl, rfl, by decide⟩

/-- C4 (amended): replacement of the most recent stack entry happens only
when `focus` is called with an explicit target level: focusing twice at
the same explicit level `L` truncates the stack to `L - 1` entries and
appends, so the second call replaces the first and the stack length does
not grow; default-target focus and clicks always append instead. -/
theorem step_focus_unlocked (s : MapState) (n : String) (L : ℕ)
    (hT : s.isTransitioning = false) (hL : s.isLoading = false)
    (hrange : ¬ (L > MAX_FOCUS_LEVEL ∨ L < 1)) :
    step s (Op.focus n (some L)) =
      startEffect L
        { s with
          isTransitioning := true
          entityStack := s.entityStack.take (L - 1) ++ [{ name := n, level := L }]
          focusLevel := L } := by
  simp only [step, hT, hL, Option.getD_some, Bool.or_self, Bool.false_eq_true, if_false]
  rw [if_neg hrange]

theorem focus_explicit_replaces (s : MapState) (n1 n2 : String) (L : ℕ)
    (hT : s.isTransitioning = false) (hL : s.isLoading = false)
    (h1 : 1 ≤ L) (h4 : L ≤ MAX_FOCUS_LEVEL) (hlen : L ≤ s.entityStack.length + 1)
    (d : Bool) :
    (run s [Op.focus n1 (some L), Op.settle d, Op.focus n2 (some L)]).entityStack =
      s.entityStack.take (L - 1) ++ [{ name := n2, level := L }] ∧
    (run s [Op.focus n1 (some L), Op.settle d, Op.focus n2 (some L)]).entityStack.length =
      (run s [Op.focus n1 (some L)]).entityStack.length := by
  have hrange : ¬ (L > MAX_FOCUS_LEVEL ∨ L < 1) := by
    simp only [MAX_FOCUS_LEVEL] at h4 ⊢
    omega
  have hs1stack : (step s (Op.focus n1 (some L))).entityStack =
      s.entityStack.take (L - 1) ++ [{ name := n1, level := L }] := by
    rw [step_focus_unlocked s n1 L hT hL hrange]
    simp only [startEffect_entityStack]
  have hs2trans : (step (step s (Op.focus n1 (some L))) (Op.settle d)).isTransitioning =
      false := rfl
  have hs2load : (step (step s (Op.focus n1 (some L))) (Op.settle d)).isLoading = false := rfl
  have hs2stack : (step (step s (Op.focus n1 (some L))) (Op.settle d)).entityStack =
      s.entityStack.take (L - 1) ++ [{ name := n1, level := L }] := hs1stack
  have htake : (s.entityStack.take (L - 1) ++
      [({ name := n1, level := L } : FocusedEntity)]).take (L - 1) =
      s.entityStack.take (L - 1) := by
    have hlt : (s.entityStack.take (L - 1)).length = L - 1 := by
      simp only [List.length_take]
      omega
    rw [List.take_append_eq_append_take, List.take_take]
    simp [hlt]
  have hrun : run s [Op.focus n1 (some L), Op.settle d, Op.focus n2 (some L)] =
      step (step (step s (Op.focus n1 (some L))) (Op.settle d)) (Op.focus n2 (some L)) := rfl
  constructor
  · rw [hrun, step_focus_unlocked _ n2 L hs2trans hs2load hrange]
    simp only [startEffect_entityStack]
    rw [hs2stack, htake]
  · rw [hrun, step_focus_unlocked _ n2 L hs2trans hs2load hrange]
    simp only [startEffect_entityStack]
    rw [hs2stack, htake]
    show _ = (step s (Op.focus n1 (some L))).entityStack.length
    rw [hs1stack]
    simp

/-- A concrete state at level 1 reached by a focus whose load completed
with no data. -/
def c4state : MapState :=
  run initState [Op.focus "United States of America" none, Op.settle false]

/-- C4 (witness): the replacement theorem applied at explicit level 1
from the concrete fallback state: `focus("Texas", 1)` then
`focus("California", 1)` yields the stack `[California@1]` of length 1. -/
theorem focus_explicit_replaces_witness :
    (c4state.isTransitioning = false ∧ c4state.isLoading = false ∧
     1 ≤ 1 ∧ 1 ≤ MAX_FOCUS_LEVEL ∧ 1 ≤ c4state.entityStack.length + 1) ∧
    ((run c4state [Op.focus "Texas" (some 1), Op.settle false,
        Op.focus "California" (some 1)]).entityStack =
      c4state.entityStack.take 0 ++ [{ name := "California", level := 1 }] ∧
     (run c4state [Op.focus "Texas" (some 1), Op.settle false,
        Op.focus "California" (some 1)]).entityStack.length =
      (run c4state [Op.focus "Texas" (some 1)]).entityStack.length) :=
  ⟨⟨by decide, by decide, by decide, by decide, by decide⟩,
   focus_explicit_replaces c4state "Texas" "California" 1 (by decide) (by decide)
     (by decide) (by decide) (by decide) false⟩

end ReactMapPoc